import Mathlib

/-!
Verification of the core of `ip_alchemist.py` (class `IPAlchemist`).

The Python code is shallowly embedded: pure fragments become Lean functions,
the effectful fragments (HTTP requests, file reads, the RNG shuffle, clock
readings, thread interleavings) become explicit parameters or explicit traces.
Each definition carries a comment pointing at the lines of `ip_alchemist.py`
it translates.
-/

namespace IPAlchemist

/-! ## String helpers: models of the Python str/int primitives used by the core -/

/-- ASCII whitespace stripped by the model of Python `str.strip()` / `int()`. -/
def isSpaceChar (c : Char) : Bool :=
  c = ' ' || c = '\t' || c = '\n' || c = '\r'

/-- Model of Python `str.strip()` on the character list of a string. -/
def stripChars (cs : List Char) : List Char :=
  ((cs.dropWhile isSpaceChar).reverse.dropWhile isSpaceChar).reverse

/-- Decimal digit test. -/
def isDigitChar (c : Char) : Bool :=
  '0' ≤ c && c ≤ '9'

/-- Value of a run of decimal digits, most significant first. -/
def digitsVal (cs : List Char) : Nat :=
  cs.foldl (fun a c => a * 10 + (c.toNat - '0'.toNat)) 0

/-- Model of Python `int(s)` for decimal strings: optional surrounding
whitespace, an optional single sign, then a nonempty run of ASCII digits;
every other input raises `ValueError`, modelled as `none`. -/
def pyInt (s : String) : Option Int :=
  match stripChars s.toList with
  | '-' :: ds => if !ds.isEmpty && ds.all isDigitChar then some (-(digitsVal ds : Int)) else none
  | '+' :: ds => if !ds.isEmpty && ds.all isDigitChar then some (digitsVal ds) else none
  | ds => if !ds.isEmpty && ds.all isDigitChar then some (digitsVal ds) else none

/-- Model of Python `s.endswith(c)` for a single-character suffix. -/
def endsWithChar (s : String) (c : Char) : Bool :=
  s.toList.getLast? = some c

/-- Model of the Python slice `s[:-1]`. -/
def dropLastChar (s : String) : String :=
  String.mk s.toList.dropLast

/-! ## parse_duration (src/ip_alchemist.py lines 997-1009) -/

/-- Translation of `IPAlchemist.parse_duration` (lines 997-1009): a trailing
`s`/`m`/`h` selects the unit, the remainder goes through `int()`; a bare
string goes through `int()` as seconds; any `ValueError` is caught and the
default 300 is returned. -/
def parse_duration (s : String) : Int :=
  if endsWithChar s 's' then
    match pyInt (dropLastChar s) with
    | some n => n
    | none => 300
  else if endsWithChar s 'm' then
    match pyInt (dropLastChar s) with
    | some n => n * 60
    | none => 300
  else if endsWithChar s 'h' then
    match pyInt (dropLastChar s) with
    | some n => n * 3600
    | none => 300
  else
    match pyInt s with
    | some n => n
    | none => 300

/-! ## Data model -/

/-- Model of the proxy dictionaries held in `self.proxies`: keys that some
code paths omit are `Option` fields; `is_favorite` models
`p.get('is_favorite', False)`, so a dict without that key reads as `false`. -/
structure Proxy where
  host : String
  port : Int
  protocol : String
  country : Option String := none
  latency : Option Int := none
  last_checked : Option String := none
  is_favorite : Bool := false
  ip : Option String := none
deriving DecidableEq, Repr

/-- Model of one favorites entry (lines 753-759). -/
structure Favorite where
  host : String
  port : Int
  protocol : String
  country : String
  added : String
deriving DecidableEq, Repr

/-- Model of one history entry (lines 733-741): `country` and `ip` are read
with `.get(..., '')`, `latency` with `.get('latency', 'N/A')` (absence is
modelled as `none`). -/
structure HistoryEntry where
  host : String
  port : Int
  protocol : String
  country : String
  ip : String
  set_time : String
  latency : Option Int
deriving DecidableEq, Repr

/-! ## add_to_history (lines 731-748) -/

/-- The entry dict built at lines 733-741 of `add_to_history`. -/
def history_entry (p : Proxy) (now : String) : HistoryEntry :=
  ⟨p.host, p.port, p.protocol, p.country.getD "", p.ip.getD "", now, p.latency⟩

/-- Translation of `IPAlchemist.add_to_history` (lines 731-748): the new entry
is inserted at index 0, then the list is truncated to the configured
`max_history` entries. -/
def add_to_history (max_history : Nat) (history : List HistoryEntry)
    (p : Proxy) (now : String) : List HistoryEntry :=
  (history_entry p now :: history).take max_history

/-! ## add_favorite (lines 750-763) -/

/-- Translation of `IPAlchemist.add_favorite` (lines 750-763): if some favorite
already has the record's host the list is unchanged and `false` is returned,
otherwise a new entry is appended and `true` is returned. -/
def add_favorite (favorites : List Favorite) (p : Proxy) (now : String) :
    List Favorite × Bool :=
  if favorites.any (fun f => f.host == p.host) then (favorites, false)
  else (favorites ++ [⟨p.host, p.port, p.protocol, p.country.getD "", now⟩], true)

/-! ## change_tor_circuit (lines 338-359) -/

/-- Model of the Python test `b"250" in response`: whether the byte sequence
`250` occurs anywhere in the reply (substring containment). -/
def contains250 : List Char → Bool
  | [] => false
  | c :: cs => (if (c :: cs).take 3 = ['2', '5', '0'] then true else false) || contains250 cs

/-- Translation of `IPAlchemist.change_tor_circuit` (lines 338-359), with the
two control-port replies supplied as inputs (the connection itself succeeded).
First component: the returned result. Second component: whether the
`signal NEWNYM` command was sent. Line 345 tests `b"250" not in response`, and
on failure returns before line 349 sends NEWNYM; line 351 tests
`b"250" in response` on the second reply. -/
def change_tor_circuit (auth_reply newnym_reply : List Char) : Bool × Bool :=
  if !contains250 auth_reply then (false, false)
  else if contains250 newnym_reply then (true, true)
  else (false, true)

/-! ## start_rotation / stop_rotation (lines 782-837) -/

/-- Model of the rotation scheduler state: `active` is `self.rotation_active`,
`interval` is `self.rotation_interval`, `end_time` is the `end_time` local of
`start_rotation` (absent when running unbounded). Times are an abstract
integer clock. -/
structure RotationState where
  active : Bool
  interval : Int
  end_time : Option Int
deriving DecidableEq, Repr

/-- Translation of `IPAlchemist.start_rotation` (lines 782-797): the flag and
interval are set, `duration_sec ≤ 0` leaves `end_time` unset (unbounded run),
otherwise `end_time := now + duration_sec` is fixed at start. -/
def start_rotation (interval_sec duration_sec now : Int) : RotationState :=
  { active := true, interval := interval_sec,
    end_time := if duration_sec ≤ 0 then none else some (now + duration_sec) }

/-- The `while` condition of `rotation_loop` (line 799):
`self.rotation_active and (end_time is None or datetime.now() < end_time)`. -/
def loop_cond (st : RotationState) (now : Int) : Bool :=
  st.active &&
    (match st.end_time with
     | none => true
     | some e => decide (now < e))

/-- Runs the condition checks of `rotation_loop` at the given clock readings:
while the condition holds the body runs and none of the modelled fields
change; at the first failing check the loop exits and line 811 clears
`rotation_active`. -/
def run_checks (st : RotationState) : List Int → RotationState
  | [] => st
  | t :: ts => if loop_cond st t then run_checks st ts else { st with active := false }

/-- Translation of `IPAlchemist.stop_rotation` (lines 829-837): while active it
clears the flag and returns `true` (after a bounded join); otherwise it is a
no-op returning `false`. -/
def stop_rotation (st : RotationState) : RotationState × Bool :=
  if st.active then ({ st with active := false }, true) else (st, false)

/-! ## Interleaving model for stop_rotation vs rotation_loop (lines 798-837)

The loop thread of `rotation_loop` and a foreground `stop_rotation` call are
interleaved as atomic events. The loop thread alternates between the `while`
condition check (line 799) and the body (lines 800-810, whose `rotate_proxy`
call reaches `set_termux_proxy`, the ApplyEngine call). `stop_rotation` run
while Running clears `rotation_active` and then joins the thread with
`timeout=2` (line 834); a timed join may return while the thread is still
inside the body, so the event `stop_return` is enabled at any thread program
counter. -/

/-- Program counter of the `rotation_loop` thread. -/
inductive LoopPC
  | at_check
  | in_body
  | exited
deriving DecidableEq, Repr

/-- Joint state of the scheduler flag, the loop thread, and whether the
`stop_rotation` call has returned. -/
structure SchedState where
  active : Bool
  pc : LoopPC
  stop_returned : Bool
deriving DecidableEq, Repr

/-- Observable events of the interleaving. -/
inductive SchedLabel
  | check_pass
  | loop_exit
  | apply_call
  | stop_return
deriving DecidableEq, Repr

/-- Atomic interleaved steps. `check_pass`/`loop_exit`: the condition check at
line 799 with the flag up resp. down (the loop then also re-clears the flag at
line 811). `apply_call`: the loop body, lines 800-810, containing the
ApplyEngine call of `rotate_proxy`/`set_termux_proxy`. `stop_return`:
`stop_rotation` called while Running clears the flag and its bounded join
returns, regardless of where the thread currently is. -/
inductive SchedStep : SchedState → SchedLabel → SchedState → Prop
  | check_pass (s : SchedState) : s.pc = .at_check → s.active = true →
      SchedStep s .check_pass { s with pc := .in_body }
  | check_fail (s : SchedState) : s.pc = .at_check → s.active = false →
      SchedStep s .loop_exit { s with pc := .exited }
  | body (s : SchedState) : s.pc = .in_body →
      SchedStep s .apply_call { s with pc := .at_check }
  | stop (s : SchedState) : s.active = true → s.stop_returned = false →
      SchedStep s .stop_return { s with active := false, stop_returned := true }

/-- Finite runs of the interleaved system, recording the event labels. -/
inductive SchedRun : SchedState → List SchedLabel → SchedState → Prop
  | nil (s : SchedState) : SchedRun s [] s
  | cons {s s' s'' : SchedState} {l : SchedLabel} {ls : List SchedLabel} :
      SchedStep s l s' → SchedRun s' ls s'' → SchedRun s (l :: ls) s''

/-- Initial state: scheduler Running, thread at the condition check, stop not
yet returned. -/
def sched_init : SchedState := ⟨true, .at_check, false⟩

/-- Whether an `apply_call` event occurs strictly after a `stop_return`
event. -/
def apply_after_stop : List SchedLabel → Bool
  | [] => false
  | .stop_return :: ls => ls.contains .apply_call
  | _ :: ls => apply_after_stop ls

/-! ## Pool fetch: fetch_live_proxies / load_custom_proxies / cache_proxies
(lines 489-612) -/

/-- The configuration fields read by the fetch path (lines 100-135, 557-566). -/
structure Config where
  max_latency : Int
  protocol_preference : List String
  favorite_countries : List String
deriving DecidableEq, Repr

/-- The defaults installed by `IPAlchemist.__init__` (lines 102-105) for the
fields the fetch path reads. -/
def default_config : Config :=
  ⟨2000, ["http", "socks5", "socks4", "https"], []⟩

/-- Model of one well-formed entry of the online API's `data` list, carrying
the keys lines 555-577 read. -/
structure ApiEntry where
  ip : String
  port : Int
  country : String
  latency : Int
  protocols : List String
  last_checked : String
deriving DecidableEq, Repr

/-- The protocol-binding loop of lines 566-577: the first protocol of the
configured preference order that the entry advertises. -/
def first_preferred (pref protos : List String) : Option String :=
  pref.find? (fun p => protos.contains p)

/-- One iteration of the filter loop of `fetch_live_proxies` (lines 555-577):
drop the entry when its latency exceeds `max_latency` (line 557), drop it when
the favorite-country allowlist is non-empty and does not hold its country
(lines 561-563), and otherwise keep it only if some preferred protocol is
advertised, binding the first such protocol (lines 566-577). -/
def entry_to_proxy (cfg : Config) (favorites : List Favorite) (e : ApiEntry) :
    Option Proxy :=
  if cfg.max_latency < e.latency then none
  else if !cfg.favorite_countries.isEmpty && !cfg.favorite_countries.contains e.country then none
  else
    (first_preferred cfg.protocol_preference e.protocols).map (fun proto =>
      { host := e.ip, port := e.port, protocol := proto,
        country := some e.country, latency := some e.latency,
        last_checked := some e.last_checked,
        is_favorite := favorites.any (fun f => f.host == e.ip) })

/-- The pool built from a well-formed online reply (lines 554-577). -/
def online_pool (cfg : Config) (favorites : List Favorite)
    (entries : List ApiEntry) : List Proxy :=
  entries.filterMap (entry_to_proxy cfg favorites)

/-- Splits a character list on `':'`, the model of Python `line.split(':')`. -/
def splitColon : List Char → List (List Char)
  | [] => [[]]
  | c :: rest =>
    let r := splitColon rest
    if c = ':' then [] :: r
    else
      match r with
      | [] => [[c]]
      | h :: t => (c :: h) :: t

/-- Outcome of one iteration of the line loop of `load_custom_proxies`
(lines 500-520). -/
inductive LineResult
  | skip
  | record (p : Proxy)
  | fatal
deriving DecidableEq, Repr

/-- Translation of one iteration of the `load_custom_proxies` line loop
(lines 500-520). Blank and `#` lines are skipped; a line starting with `{`
goes through `json.loads`, modelled by the oracle `jsonParse`, a failure being
skipped (lines 506-511); otherwise the line is split on `':'`, lines with
fewer than two parts are skipped silently, and `int(parts[1])` raising (no
handler inside the loop) aborts the whole load: `fatal`. The protocol
defaults to `http` when the line has no third part (line 518). -/
def process_line (jsonParse : String → Option Proxy) (line : String) : LineResult :=
  let l := stripChars line.toList
  if l.isEmpty then .skip
  else if l.head? = some '#' then .skip
  else if l.head? = some '{' then
    match jsonParse (String.mk l) with
    | some p => .record p
    | none => .skip
  else
    let parts := splitColon l
    if parts.length ≥ 2 then
      match pyInt (String.mk (parts.getD 1 [])) with
      | some n =>
          .record { host := String.mk (parts.getD 0 []), port := n,
                    protocol := if parts.length > 2 then String.mk (parts.getD 2 []) else "http" }
      | none => .fatal
    else .skip

/-- The line loop of `load_custom_proxies` over the file's lines, starting
from the already-reset pool accumulator: a `fatal` line aborts with the
records appended so far (the uncaught exception reaches the handler at
line 524, which returns `False`). -/
def load_lines (jsonParse : String → Option Proxy) :
    List String → List Proxy → Bool × List Proxy
  | [], acc => (true, acc)
  | line :: rest, acc =>
    match process_line jsonParse line with
    | .skip => load_lines jsonParse rest acc
    | .record p => load_lines jsonParse rest (acc ++ [p])
    | .fatal => (false, acc)

/-- Translation of `IPAlchemist.load_custom_proxies` (lines 489-526): with no
configured/existing file (`file = none`) it fails leaving the pool as it was
(lines 491-493); otherwise `self.proxies` is first reset to `[]` (line 497)
and rebuilt line by line. Returns (result, new pool). -/
def load_custom_proxies (jsonParse : String → Option Proxy)
    (prior : List Proxy) (file : Option (List String)) : Bool × List Proxy :=
  match file with
  | none => (false, prior)
  | some lines => load_lines jsonParse lines []

/-- Shape of what `requests.get` + `response.json()` produced, as examined by
`fetch_live_proxies` lines 543-555. `transport_error`: the request or JSON
decoding raised (caught at line 586 before the pool reset at line 554).
`no_data_key`: `'data' not in data` (line 550). `data_not_list`: the `data`
key is present but holds a non-iterable value, so line 555 raises after the
pool was reset. `records`: a well-formed record list. -/
inductive ApiResult
  | transport_error
  | no_data_key
  | data_not_list
  | records (entries : List ApiEntry)

/-- Observable outcome of one `fetch_live_proxies` call: the returned result,
the in-memory pool afterwards, and the pool snapshots written by
`cache_proxies` (lines 604-612) during the call. -/
structure FetchOutcome where
  ok : Bool
  pool : List Proxy
  cache_writes : List (List Proxy)
deriving DecidableEq, Repr

/-- Translation of `IPAlchemist.fetch_live_proxies` (lines 528-589) with its
dispatch: `custom` delegates to `load_custom_proxies` (line 531, which never
caches), `tor` succeeds leaving the pool alone (line 533), and the online
path filters the reply into the pool and caches it via `cache_proxies`
(line 583) on success. -/
def fetch_live_proxies (cfg : Config) (favorites : List Favorite) (source : String)
    (jsonParse : String → Option Proxy) (custom_file : Option (List String))
    (api : ApiResult) (prior : List Proxy) : FetchOutcome :=
  if source = "custom" then
    ⟨(load_custom_proxies jsonParse prior custom_file).1,
     (load_custom_proxies jsonParse prior custom_file).2, []⟩
  else if source = "tor" then ⟨true, prior, []⟩
  else
    match api with
    | .transport_error => ⟨false, prior, []⟩
    | .no_data_key => ⟨false, prior, []⟩
    | .data_not_list => ⟨false, [], []⟩
    | .records entries => ⟨true, online_pool cfg favorites entries,
                           [online_pool cfg favorites entries]⟩

/-! ## find_working_proxy (lines 644-669) -/

/-- The fields of a successful `test_proxy` result (lines 635-639). `none`
models `{'working': False}`. -/
structure TestOk where
  ip : String
  latency : Int
deriving DecidableEq, Repr

/-- Outcome of one `find_working_proxy` call: a working record merged with its
health-check fields, `None` when every candidate failed (line 669), or the
uncaught `KeyError` that `sorted(self.proxies, key=lambda x: x['latency'])`
(line 654) raises out of the call when some pool record lacks the `latency`
key (as every colon-format CustomFile record does, lines 515-519). -/
inductive SelectorResult
  | found (p : Proxy) (ok : TestOk)
  | noneFound
  | keyError
deriving DecidableEq, Repr

/-- Model of the key extraction `sorted` performs for
`key=lambda x: x['latency']` (line 654): every record paired with its latency
key, in pool order; `none` when some record lacks the key, in which case the
`x['latency']` lookup raises `KeyError`. -/
def latency_keyed : List Proxy → Option (List (Int × Proxy))
  | [] => some []
  | p :: ps =>
    match p.latency, latency_keyed ps with
    | some l, some rest => some ((l, p) :: rest)
    | _, _ => none

/-- Ascending comparison of the extracted latency keys. -/
def key_le (a b : Int × Proxy) : Bool :=
  a.1 ≤ b.1

/-- The candidate-testing loop of `find_working_proxy` (lines 660-669): test
candidates in order and return the first working one merged with its
health-check result (`{**proxy, **result}`, line 666); `none` when every
candidate fails (line 669). -/
def first_fit (test : Proxy → Option TestOk) : List Proxy → Option (Proxy × TestOk)
  | [] => none
  | p :: ps =>
    match test p with
    | some ok => some (p, ok)
    | none => first_fit test ps

/-- The loop of lines 660-669 wrapped into the call's outcome. -/
def select (test : Proxy → Option TestOk) (cands : List Proxy) : SelectorResult :=
  match first_fit test cands with
  | some (p, ok) => .found p ok
  | none => .noneFound

/-- Translation of `IPAlchemist.find_working_proxy` (lines 644-669) on a given
pool (the empty-pool refetch of lines 646-649 supplies `proxies`): favorites
first (line 652); otherwise the pool is sorted ascending by each record's
`latency` key (line 654, a stable sort like Python's `sorted`), and that key
lookup raises `KeyError` out of the call when any record lacks the key. The
candidate list is truncated to `max_attempts` (line 657), shuffled (line 658,
`random.shuffle` modelled by the `shuffle` parameter), then tested first-fit
(`test` models `test_proxy` with its 5s timeout). -/
def find_working_proxy (proxies : List Proxy) (max_attempts : Nat)
    (shuffle : List Proxy → List Proxy) (test : Proxy → Option TestOk) :
    SelectorResult :=
  let favs := proxies.filter (fun p => p.is_favorite)
  match (if favs.isEmpty then
          (latency_keyed proxies).map (fun keyed => (keyed.mergeSort key_le).map Prod.snd)
        else some favs) with
  | none => .keyError
  | some base => select test (shuffle (base.take max_attempts))

/-! ## Theorems -/

/-- Helper: a string ending in one character does not end in a different one. -/
theorem endsWithChar_ne {s : String} {c : Char} (d : Char) (h : endsWithChar s c = true)
    (hne : d ≠ c) : endsWithChar s d = false := by
  simp only [endsWithChar, decide_eq_true_eq] at h
  simp only [endsWithChar, h, decide_eq_false_iff_not, Option.some.injEq]
  exact fun he => hne he.symm

/-- C10: `parse_duration` is total over strings and never raises: a string
ending in `s`, `m` or `h` whose remainder parses as an integer yields that
integer times 1, 60 or 3600 seconds respectively, a bare integer string
yields that value in seconds, and every other (unparsable) input yields the
default 300 seconds. -/
theorem parse_duration_correct (s : String) (n : Int) :
    (endsWithChar s 's' = true → pyInt (dropLastChar s) = some n → parse_duration s = n)
  ∧ (endsWithChar s 'm' = true → pyInt (dropLastChar s) = some n → parse_duration s = n * 60)
  ∧ (endsWithChar s 'h' = true → pyInt (dropLastChar s) = some n → parse_duration s = n * 3600)
  ∧ ((endsWithChar s 's' || endsWithChar s 'm' || endsWithChar s 'h') = true →
       pyInt (dropLastChar s) = none → parse_duration s = 300)
  ∧ (endsWithChar s 's' = false → endsWithChar s 'm' = false → endsWithChar s 'h' = false →
       pyInt s = some n → parse_duration s = n)
  ∧ (endsWithChar s 's' = false → endsWithChar s 'm' = false → endsWithChar s 'h' = false →
       pyInt s = none → parse_duration s = 300) := by
  refine ⟨?_, ?_, ?_, ?_, ?_, ?_⟩
  · intro h1 h2
    simp [parse_duration, h1, h2]
  · intro h1 h2
    have hs := endsWithChar_ne 's' h1 (by decide)
    simp [parse_duration, h1, h2, hs]
  · intro h1 h2
    have hs := endsWithChar_ne 's' h1 (by decide)
    have hm := endsWithChar_ne 'm' h1 (by decide)
    simp [parse_duration, h1, h2, hs, hm]
  · intro h1 h2
    cases hs : endsWithChar s 's'
    · cases hm : endsWithChar s 'm'
      · cases hh : endsWithChar s 'h'
        · simp [hs, hm, hh] at h1
        · simp [parse_duration, hs, hm, hh, h2]
      · simp [parse_duration, hs, hm, h2]
    · simp [parse_duration, hs, h2]
  · intro h1 h2 h3 h4
    simp [parse_duration, h1, h2, h3, h4]
  · intro h1 h2 h3 h4
    simp [parse_duration, h1, h2, h3, h4]

/-- C10 witness: the theorem instantiated at the input "2h". -/
theorem parse_duration_correct_witness :
    endsWithChar "2h" 'h' = true ∧ pyInt (dropLastChar "2h") = some 2 ∧
    parse_duration "2h" = 2 * 3600 := by
  refine ⟨by decide, by decide, ?_⟩
  exact (parse_duration_correct "2h" 2).2.2.1 (by decide) (by decide)

/-- C8 counterexample: with configured `max_history = 0` (the truncation
`self.history[:0]` at line 747) the history after an apply is empty, so the
most recently applied proxy is not the entry at index 0. -/
theorem add_to_history_counterexample :
    add_to_history 0 [] { host := "h", port := 1, protocol := "http" } "t0" = []
  ∧ (add_to_history 0 [] { host := "h", port := 1, protocol := "http" } "t0").head? ≠
      some (history_entry { host := "h", port := 1, protocol := "http" } "t0") := by
  exact ⟨rfl, by decide⟩

/-- C8 amended: after every `add_to_history` call the history length never
exceeds the configured `max_history`, and whenever `max_history ≥ 1` the most
recently applied proxy is the entry at index 0 (oldest entries silently
dropped). -/
theorem add_to_history_spec (max_history : Nat) (history : List HistoryEntry)
    (p : Proxy) (now : String) :
    (add_to_history max_history history p now).length ≤ max_history
  ∧ (0 < max_history →
      (add_to_history max_history history p now).head? = some (history_entry p now)) := by
  constructor
  · exact List.length_take_le _ _
  · intro h
    match max_history, h with
    | m + 1, _ => simp [add_to_history]

/-- C8 witness: the amended theorem instantiated at `max_history = 2` on an
empty history. -/
theorem add_to_history_spec_witness :
    (add_to_history 2 [] { host := "h", port := 1, protocol := "http" } "t0").length ≤ 2
  ∧ (add_to_history 2 [] { host := "h", port := 1, protocol := "http" } "t0").head? =
      some (history_entry { host := "h", port := 1, protocol := "http" } "t0") := by
  have h := add_to_history_spec 2 [] { host := "h", port := 1, protocol := "http" } "t0"
  exact ⟨h.1, h.2 (by decide)⟩

/-- C9: favorites are unique by host: for a record whose host already occurs
in the favorites list `add_favorite` leaves the list unchanged and returns
`false`; for a host not yet present the record's host, port, protocol and
country are appended (with the addition timestamp) and `true` is returned. -/
theorem add_favorite_unique_by_host (favorites : List Favorite) (p : Proxy) (now : String) :
    ((∃ f ∈ favorites, f.host = p.host) → add_favorite favorites p now = (favorites, false))
  ∧ ((∀ f ∈ favorites, f.host ≠ p.host) →
      add_favorite favorites p now =
        (favorites ++ [⟨p.host, p.port, p.protocol, p.country.getD "", now⟩], true)) := by
  constructor
  · rintro ⟨f, hf, he⟩
    have hany : favorites.any (fun f => f.host == p.host) = true := by
      simp only [List.any_eq_true, beq_iff_eq]
      exact ⟨f, hf, he⟩
    simp [add_favorite, hany]
  · intro h
    have hany : favorites.any (fun f => f.host == p.host) = false := by
      simp only [List.any_eq_false, beq_iff_eq]
      exact h
    simp [add_favorite, hany]

/-- C9 witness: the theorem instantiated on a one-element favorites list with
a clashing host, and on an empty favorites list. -/
theorem add_favorite_unique_by_host_witness :
    add_favorite [⟨"h", 1, "http", "", "t"⟩] { host := "h", port := 2, protocol := "socks5" } "t1"
      = ([⟨"h", 1, "http", "", "t"⟩], false)
  ∧ add_favorite [] { host := "g", port := 3, protocol := "http", country := some "US" } "t2"
      = ([⟨"g", 3, "http", "US", "t2"⟩], true) := by
  refine ⟨(add_favorite_unique_by_host _ _ _).1 ⟨⟨"h", 1, "http", "", "t"⟩, by simp, rfl⟩, ?_⟩
  exact (add_favorite_unique_by_host _ _ _).2 (by simp)

/-- C5 counterexample: the code tests `b"250" in response` (containment, line
345), not a prefix: an AUTHENTICATE reply that does not begin with 250 but
contains it elsewhere is accepted, NEWNYM is sent, and the call succeeds —
the claim's "requires the reply to begin with 250, failing the whole call
otherwise" is false of the code. -/
theorem change_tor_circuit_counterexample :
    change_tor_circuit ("515 took 250ms".toList) ("250 OK".toList) = (true, true)
  ∧ ("515 took 250ms".toList).take 3 ≠ ['2', '5', '0'] := by
  exact ⟨by decide, by decide⟩

/-- C5 amended: `change_tor_circuit` requires the AUTHENTICATE reply to
contain the byte sequence 250 (a substring test, not a prefix test), failing
the whole call otherwise; the NEWNYM command is sent exactly when the
AUTHENTICATE check passes, the call succeeds exactly when both replies
contain 250 (no retry inside the call), and against a control port replying
`515 Bad authentication` the call returns failure and never sends NEWNYM. -/
theorem change_tor_circuit_spec (auth_reply newnym_reply : List Char) :
    (change_tor_circuit auth_reply newnym_reply).2 = contains250 auth_reply
  ∧ (change_tor_circuit auth_reply newnym_reply).1 =
      (contains250 auth_reply && contains250 newnym_reply)
  ∧ change_tor_circuit ("515 Bad authentication".toList) newnym_reply = (false, false) := by
  refine ⟨?_, ?_, ?_⟩
  · cases ha : contains250 auth_reply
    · simp [change_tor_circuit, ha]
    · cases hn : contains250 newnym_reply <;> simp [change_tor_circuit, ha, hn]
  · cases ha : contains250 auth_reply
    · simp [change_tor_circuit, ha]
    · cases hn : contains250 newnym_reply <;> simp [change_tor_circuit, ha, hn]
  · unfold change_tor_circuit
    rw [(by decide : contains250 ("515 Bad authentication".toList) = false)]
    simp

/-- C3: for the rotation scheduler started with
`start_rotation(interval, duration)`: when `duration ≤ 0` no end time is set
and every sequence of loop-condition checks leaves the scheduler running
unchanged (it never self-terminates; only an external `stop_rotation`, which
falsifies the loop condition at every instant, ends it); when
`duration = N > 0` the end time `start + N` is fixed at start and the first
condition check at any instant `t ≥ start + N` exits the loop and clears the
active flag (Stopped) without any external call. -/
theorem start_rotation_duration_spec (i d now : Int) :
    (d ≤ 0 →
        (start_rotation i d now).end_time = none
      ∧ (∀ ts, run_checks (start_rotation i d now) ts = start_rotation i d now
          ∧ (run_checks (start_rotation i d now) ts).active = true)
      ∧ (∀ t, loop_cond (stop_rotation (start_rotation i d now)).1 t = false))
  ∧ (0 < d →
        (start_rotation i d now).end_time = some (now + d)
      ∧ (∀ t ts, now + d ≤ t →
          run_checks (start_rotation i d now) (t :: ts)
            = { start_rotation i d now with active := false }
          ∧ (run_checks (start_rotation i d now) (t :: ts)).active = false)) := by
  constructor
  · intro hd
    have hend : (start_rotation i d now).end_time = none := by
      simp [start_rotation, hd]
    refine ⟨hend, ?_, ?_⟩
    · intro ts
      have hrun : run_checks (start_rotation i d now) ts = start_rotation i d now := by
        induction ts with
        | nil => rfl
        | cons t ts ih =>
          have hc : loop_cond (start_rotation i d now) t = true := by
            simp [loop_cond, start_rotation, hd]
          simp [run_checks, hc, ih]
      exact ⟨hrun, by rw [hrun]; rfl⟩
    · intro t
      simp [stop_rotation, start_rotation, loop_cond]
  · intro hd
    have hend : (start_rotation i d now).end_time = some (now + d) := by
      have : ¬ d ≤ 0 := by omega
      simp [start_rotation, this]
    refine ⟨hend, ?_⟩
    intro t ts ht
    have hc : loop_cond (start_rotation i d now) t = false := by
      have : ¬ d ≤ 0 := by omega
      simp [loop_cond, start_rotation, this]
      omega
    constructor
    · simp [run_checks, hc]
    · simp [run_checks, hc]

/-- C3 witness: the theorem instantiated at interval 60 with duration 0
(unbounded) and with duration 7 (bounded), both started at instant 100. -/
theorem start_rotation_duration_spec_witness :
    (start_rotation 60 0 100).end_time = none
  ∧ run_checks (start_rotation 60 0 100) [100, 1000, 100000] = start_rotation 60 0 100
  ∧ (start_rotation 60 7 100).end_time = some 107
  ∧ run_checks (start_rotation 60 7 100) [107]
      = { start_rotation 60 7 100 with active := false } := by
  have h0 := (start_rotation_duration_spec 60 0 100).1 (by decide)
  have h7 := (start_rotation_duration_spec 60 7 100).2 (by decide)
  refine ⟨h0.1, (h0.2.1 [100, 1000, 100000]).1, ?_, (h7.2 107 [] (by decide)).1⟩
  have := h7.1
  simpa using this

/-- Helper: no interleaved step re-raises the cleared rotation flag. -/
theorem SchedStep.active_false {s s' : SchedState} {l : SchedLabel}
    (h : SchedStep s l s') (ha : s.active = false) : s'.active = false := by
  cases h <;> simp_all

/-- Helper: a run over an appended label list splits at the boundary. -/
theorem SchedRun.append_split {l1 : List SchedLabel} :
    ∀ {s s'' : SchedState} {l2 : List SchedLabel}, SchedRun s (l1 ++ l2) s'' →
      ∃ m, SchedRun s l1 m ∧ SchedRun m l2 s'' := by
  induction l1 with
  | nil => exact fun h => ⟨_, .nil _, h⟩
  | cons a l1 ih =>
    intro s s'' l2 h
    cases h with
    | cons hstep hrest =>
      obtain ⟨m, h1, h2⟩ := ih hrest
      exact ⟨m, .cons hstep h1, h2⟩

/-- Helper: once the rotation flag is down, the loop never passes another
condition check; the only ApplyEngine call that can still happen is the one
body already in flight. -/
theorem sched_inactive_apply_bound {ls : List SchedLabel} :
    ∀ {s s' : SchedState}, SchedRun s ls s' → s.active = false →
      ls.count SchedLabel.apply_call ≤ (if s.pc = LoopPC.in_body then 1 else 0)
    ∧ ls.count SchedLabel.check_pass = 0 := by
  induction ls with
  | nil =>
    intro s s' h ha
    simp
  | cons l ls ih =>
    intro s s'' h ha
    cases h with
    | cons hstep hrest =>
      cases hstep with
      | check_pass h1 h2 =>
        rw [ha] at h2
        exact Bool.noConfusion h2
      | check_fail h1 h2 =>
        obtain ⟨ih1, ih2⟩ := ih hrest (by simpa using ha)
        have hb : List.count SchedLabel.apply_call ls ≤ 0 := by simpa using ih1
        have hc : List.count SchedLabel.check_pass ls = 0 := ih2
        constructor
        · rw [h1]
          simp only [List.count_cons]
          simp
          omega
        · simp only [List.count_cons]
          simp [hc]
      | body h1 =>
        obtain ⟨ih1, ih2⟩ := ih hrest (by simpa using ha)
        have hb : List.count SchedLabel.apply_call ls ≤ 0 := by simpa using ih1
        have hc : List.count SchedLabel.check_pass ls = 0 := ih2
        constructor
        · rw [h1]
          simp only [List.count_cons]
          simp
          omega
        · simp only [List.count_cons]
          simp [hc]
      | stop h1 h2 =>
        rw [ha] at h1
        exact Bool.noConfusion h1

/-- C4 counterexample: a valid interleaving in which the loop thread has
already passed the condition check (line 799) when `stop_rotation` clears the
flag and its bounded join (`timeout=2`, line 834) returns; the in-flight loop
body (lines 800-810) then still performs its ApplyEngine call
(`set_termux_proxy` via `rotate_proxy`) after `stop()` has returned — so "no
further ApplyEngine calls occur after stop() returns" is false of the code. -/
theorem stop_rotation_counterexample :
    SchedRun sched_init [.check_pass, .stop_return, .apply_call]
      ⟨false, .at_check, true⟩
  ∧ apply_after_stop [.check_pass, .stop_return, .apply_call] = true := by
  constructor
  · exact .cons (.check_pass _ rfl rfl)
      (.cons (.stop _ rfl rfl) (.cons (.body _ rfl) (.nil _)))
  · decide

/-- C4 amended: `stop_rotation` called while Running clears the active flag
before it returns (the state is Stopped immediately), and after the
`stop_return` event no new loop iteration begins (no further condition check
passes); however, because the join is bounded by a 2-second timeout, one
iteration already in flight when stop returned may still complete, so at most
one further ApplyEngine call can occur after `stop()` returns. -/
theorem stop_rotation_interleaving_spec :
    (∀ (s s' : SchedState), SchedStep s .stop_return s' → s'.active = false)
  ∧ (∀ (s s' : SchedState) (pre post : List SchedLabel),
      SchedRun s (pre ++ SchedLabel.stop_return :: post) s' →
      post.count SchedLabel.apply_call ≤ 1 ∧ post.count SchedLabel.check_pass = 0) := by
  constructor
  · intro s s' h
    cases h with
    | stop h1 h2 => rfl
  · intro s s' pre post h
    obtain ⟨m, _, h2⟩ := SchedRun.append_split h
    cases h2 with
    | cons hstep hrest =>
      cases hstep with
      | stop ha hb =>
        obtain ⟨b1, b2⟩ := sched_inactive_apply_bound hrest rfl
        refine ⟨le_trans b1 ?_, b2⟩
        split <;> omega

/-- C4 witness: the amended theorem applied to the concrete interleaving with
one in-flight loop body. -/
theorem stop_rotation_interleaving_spec_witness :
    (⟨false, LoopPC.in_body, true⟩ : SchedState).active = false
  ∧ [SchedLabel.apply_call].count SchedLabel.apply_call ≤ 1
  ∧ [SchedLabel.apply_call].count SchedLabel.check_pass = 0 := by
  refine ⟨stop_rotation_interleaving_spec.1 ⟨true, .in_body, false⟩ _ (.stop _ rfl rfl),
    ?_, ?_⟩
  · exact (stop_rotation_interleaving_spec.2 sched_init ⟨false, .at_check, true⟩
      [.check_pass] [.apply_call]
      (.cons (.check_pass _ rfl rfl)
        (.cons (.stop _ rfl rfl) (.cons (.body _ rfl) (.nil _))))).1
  · exact (stop_rotation_interleaving_spec.2 sched_init ⟨false, .at_check, true⟩
      [.check_pass] [.apply_call]
      (.cons (.check_pass _ rfl rfl)
        (.cons (.stop _ rfl rfl) (.cons (.body _ rfl) (.nil _))))).2

/-- C1 counterexample: a successful CustomFile fetch applies none of the
configured filters (lines 499-520 parse lines verbatim): with the default
configuration, the file line `1.2.3.4:8080:weird` yields a pool whose record
is bound to protocol `weird`, which is not a member of the configured
protocol_preference list — so the claim, which also covers CustomFile pools,
is false of the code. -/
theorem fetch_pool_filter_counterexample :
    (fetch_live_proxies default_config [] "custom" (fun _ => none)
        (some ["1.2.3.4:8080:weird"]) .transport_error []).ok = true
  ∧ (fetch_live_proxies default_config [] "custom" (fun _ => none)
        (some ["1.2.3.4:8080:weird"]) .transport_error []).pool
      = [{ host := "1.2.3.4", port := 8080, protocol := "weird" }]
  ∧ ¬ ("weird" ∈ default_config.protocol_preference) := by
  exact ⟨by decide, by decide, by decide⟩

/-- C1 amended: for every pool produced by a successful OnlineAPI fetch,
every record's bound protocol is a member of the configured
protocol_preference list and, whenever the favorite_countries allowlist is
non-empty, every record's country is a member of that allowlist (CustomFile
fetches apply no such filtering). -/
theorem online_fetch_pool_filtered (cfg : Config) (favorites : List Favorite)
    (jsonParse : String → Option Proxy) (custom_file : Option (List String))
    (entries : List ApiEntry) (prior : List Proxy) (r : Proxy)
    (hr : r ∈ (fetch_live_proxies cfg favorites "online" jsonParse custom_file
        (.records entries) prior).pool) :
    r.protocol ∈ cfg.protocol_preference
  ∧ (cfg.favorite_countries ≠ [] →
      ∃ c, r.country = some c ∧ c ∈ cfg.favorite_countries) := by
  have hr' : r ∈ online_pool cfg favorites entries := by
    simpa [fetch_live_proxies] using hr
  obtain ⟨e, he, hconv⟩ := List.mem_filterMap.mp hr'
  unfold entry_to_proxy at hconv
  by_cases h1 : cfg.max_latency < e.latency
  · simp [h1] at hconv
  · by_cases h2 : (!cfg.favorite_countries.isEmpty && !cfg.favorite_countries.contains e.country) = true
    · simp only [h1, if_false, h2, if_true] at hconv
      exact absurd hconv (by simp)
    · simp only [h1, if_false, h2, if_true] at hconv
      rw [if_neg (by simp)] at hconv
      obtain ⟨proto, hfind, hrec⟩ := Option.map_eq_some'.mp hconv
      constructor
      · have hmem := List.mem_of_find?_eq_some hfind
        rw [← hrec]
        exact hmem
      · intro hne
        refine ⟨e.country, by rw [← hrec], ?_⟩
        have hie : cfg.favorite_countries.isEmpty = false := by simpa using hne
        simp only [Bool.and_eq_true, Bool.not_eq_true'] at h2
        rcases not_and_or.mp h2 with hc | hc
        · rw [hie] at hc
          simp at hc
        · have : cfg.favorite_countries.contains e.country = true := by
            revert hc
            cases cfg.favorite_countries.contains e.country <;> simp
          simpa using this

/-- C1 witness: the amended theorem instantiated on a configuration with a
non-empty allowlist and one entry that passes all filters. -/
theorem online_fetch_pool_filtered_witness :
    (⟨"1.1.1.1", 80, "http", some "US", some 100, some "t", false, none⟩ : Proxy).protocol
      ∈ (⟨2000, ["http"], ["US"]⟩ : Config).protocol_preference
  ∧ (∃ c, (⟨"1.1.1.1", 80, "http", some "US", some 100, some "t", false, none⟩ : Proxy).country
        = some c ∧ c ∈ (⟨2000, ["http"], ["US"]⟩ : Config).favorite_countries) := by
  have h := online_fetch_pool_filtered ⟨2000, ["http"], ["US"]⟩ [] (fun _ => none) none
    [⟨"1.1.1.1", 80, "US", 100, ["socks4", "http"], "t"⟩] []
    ⟨"1.1.1.1", 80, "http", some "US", some 100, some "t", false, none⟩
    (by decide)
  exact ⟨h.1, h.2 (by decide)⟩

/-- C6 counterexample: a fetch that fails with a schema error does not always
leave the prior pool intact: when the online source returns a body whose
`data` key holds a non-list value, the key-presence check at line 550 passes,
line 554 resets `self.proxies = []`, and the iteration at line 555 raises,
so the fetch returns failure with the pool cleared, not as it was before. -/
theorem fetch_failure_counterexample :
    (fetch_live_proxies default_config [] "online" (fun _ => none) none
        .data_not_list [{ host := "9.9.9.9", port := 1, protocol := "http" }]).ok = false
  ∧ (fetch_live_proxies default_config [] "online" (fun _ => none) none
        .data_not_list [{ host := "9.9.9.9", port := 1, protocol := "http" }]).pool
      ≠ [{ host := "9.9.9.9", port := 1, protocol := "http" }] := by
  exact ⟨by decide, by decide⟩

/-- C6 amended: an OnlineAPI fetch that fails from a network/transport error
(the request or JSON decode raising, caught before the pool reset) or from
the top-level `data` key being absent returns failure and leaves the prior
in-memory pool exactly as it was, as does a CustomFile fetch with no
configured/existing file; but a reply whose `data` key holds a non-list
(and a CustomFile parse abort) fails with the pool already cleared or
partially rebuilt. -/
theorem fetch_failure_preserves_pool (cfg : Config) (favorites : List Favorite)
    (jsonParse : String → Option Proxy) (custom_file : Option (List String))
    (prior : List Proxy) :
    fetch_live_proxies cfg favorites "online" jsonParse custom_file .transport_error prior
      = ⟨false, prior, []⟩
  ∧ fetch_live_proxies cfg favorites "online" jsonParse custom_file .no_data_key prior
      = ⟨false, prior, []⟩
  ∧ (∀ api, fetch_live_proxies cfg favorites "custom" jsonParse none api prior
      = ⟨false, prior, []⟩) := by
  refine ⟨by simp [fetch_live_proxies], by simp [fetch_live_proxies], fun api => ?_⟩
  simp [fetch_live_proxies, load_custom_proxies]

/-- C7 counterexample: a successful CustomFile fetch performs no cache write:
`load_custom_proxies` (lines 489-526) returns without ever calling
`cache_proxies`, so the claim that every successful CustomFile fetch durably
caches the fetched records is false of the code. -/
theorem custom_fetch_no_cache_counterexample :
    (fetch_live_proxies default_config [] "custom" (fun _ => none)
        (some ["1.2.3.4:8080"]) .transport_error []).ok = true
  ∧ (fetch_live_proxies default_config [] "custom" (fun _ => none)
        (some ["1.2.3.4:8080"]) .transport_error []).cache_writes = [] := by
  exact ⟨by decide, by decide⟩

/-- C7 amended: every successful OnlineAPI fetch caches the fetched pool in a
timestamped cache entry via `cache_proxies` (line 583), independent of later
in-memory pool mutation; CustomFile fetches never cache. -/
theorem online_fetch_caches (cfg : Config) (favorites : List Favorite)
    (jsonParse : String → Option Proxy) (custom_file : Option (List String))
    (entries : List ApiEntry) (prior : List Proxy) :
    (fetch_live_proxies cfg favorites "online" jsonParse custom_file
        (.records entries) prior).ok = true
  ∧ (fetch_live_proxies cfg favorites "online" jsonParse custom_file
        (.records entries) prior).cache_writes
      = [(fetch_live_proxies cfg favorites "online" jsonParse custom_file
            (.records entries) prior).pool]
  ∧ (∀ file, (fetch_live_proxies cfg favorites "custom" jsonParse file
        (.records entries) prior).cache_writes = []) := by
  refine ⟨by simp [fetch_live_proxies], by simp [fetch_live_proxies], fun file => ?_⟩
  simp [fetch_live_proxies]

/-- Helper: a successful `first_fit` returns a working candidate and every
candidate tried before it failed. -/
theorem first_fit_eq_some {test : Proxy → Option TestOk} :
    ∀ {l : List Proxy} {p : Proxy} {ok : TestOk}, first_fit test l = some (p, ok) →
      test p = some ok ∧ ∃ pre post, l = pre ++ p :: post ∧ ∀ q ∈ pre, test q = none := by
  intro l
  induction l with
  | nil =>
    intro p ok h
    exact absurd h (by simp [first_fit])
  | cons a l ih =>
    intro p ok h
    cases ht : test a with
    | some r =>
      rw [first_fit, ht] at h
      obtain ⟨rfl, rfl⟩ := Prod.mk.injEq .. ▸ Option.some.inj h
      exact ⟨ht, [], l, rfl, by simp⟩
    | none =>
      rw [first_fit, ht] at h
      obtain ⟨hp, pre, post, heq, hpre⟩ := ih h
      refine ⟨hp, a :: pre, post, by rw [heq]; rfl, ?_⟩
      intro q hq
      rcases List.mem_cons.mp hq with rfl | hq
      · exact ht
      · exact hpre q hq

/-- Helper: `first_fit` returns nothing when every candidate fails. -/
theorem first_fit_eq_none {test : Proxy → Option TestOk} :
    ∀ {l : List Proxy}, (∀ q ∈ l, test q = none) → first_fit test l = none := by
  intro l
  induction l with
  | nil => intro h; rfl
  | cons a l ih =>
    intro h
    rw [first_fit, h a (by simp)]
    exact ih (fun q hq => h q (by simp [hq]))

/-- Helper: the key comparison is transitive. -/
theorem key_le_trans (a b c : Int × Proxy) (h1 : key_le a b = true)
    (h2 : key_le b c = true) : key_le a c = true := by
  simp only [key_le, decide_eq_true_eq] at *
  omega

/-- Helper: the key comparison is total. -/
theorem key_le_total (a b : Int × Proxy) : (key_le a b || key_le b a) = true := by
  simp only [key_le, Bool.or_eq_true, decide_eq_true_eq]
  omega

/-- Helper: a successful key extraction pairs every record with its own
latency, in pool order. -/
theorem latency_keyed_eq_some :
    ∀ {l : List Proxy} {keyed : List (Int × Proxy)}, latency_keyed l = some keyed →
      keyed.map Prod.snd = l ∧ ∀ pr ∈ keyed, pr.2.latency = some pr.1 := by
  intro l
  induction l with
  | nil =>
    intro keyed h
    cases Option.some.inj h
    exact ⟨rfl, by simp⟩
  | cons p ps ih =>
    intro keyed h
    rw [latency_keyed] at h
    cases hl : p.latency with
    | none =>
      rw [hl] at h
      exact absurd h (by simp)
    | some lv =>
      cases hr : latency_keyed ps with
      | none =>
        rw [hl, hr] at h
        exact absurd h (by simp)
      | some rest =>
        rw [hl, hr] at h
        cases Option.some.inj h
        obtain ⟨ih1, ih2⟩ := ih hr
        refine ⟨by simp [ih1], ?_⟩
        intro pr hpr
        rcases List.mem_cons.mp hpr with rfl | hpr
        · exact hl
        · exact ih2 pr hpr

/-- Helper: key extraction fails exactly when some record lacks a latency. -/
theorem latency_keyed_eq_none :
    ∀ {l : List Proxy}, latency_keyed l = none ↔ ∃ p ∈ l, p.latency = none := by
  intro l
  induction l with
  | nil => simp [latency_keyed]
  | cons p ps ih =>
    rw [latency_keyed]
    cases hl : p.latency with
    | none =>
      simp only [hl]
      constructor
      · intro _
        exact ⟨p, by simp, hl⟩
      · intro _
        trivial
    | some lv =>
      cases hr : latency_keyed ps with
      | none =>
        simp only [hl, hr]
        constructor
        · intro _
          obtain ⟨q, hq, hqn⟩ := ih.mp hr
          exact ⟨q, by simp [hq], hqn⟩
        · intro _
          trivial
      | some rest =>
        simp only [hl, hr]
        constructor
        · intro h
          exact absurd h (by simp)
        · rintro ⟨q, hq, hqn⟩
          rcases List.mem_cons.mp hq with rfl | hq
          · rw [hl] at hqn
            exact absurd hqn (by simp)
          · exact absurd (ih.mpr ⟨q, hq, hqn⟩) (by simp [hr])

/-- C2 counterexample: the claim says the selector sorts the full pool
ascending by latency and returns nothing (not an error) when every candidate
fails; but on a pool whose record lacks the `latency` key — exactly what the
colon-format CustomFile line `1.2.3.4:8080` produces, and such records also
never carry `is_favorite` — the `x['latency']` lookup of the sort at line 654
raises `KeyError` out of the call: the code errors instead of returning
nothing. -/
theorem find_working_proxy_counterexample :
    process_line (fun _ => none) "1.2.3.4:8080"
      = .record ⟨"1.2.3.4", 8080, "http", none, none, none, false, none⟩
  ∧ find_working_proxy [⟨"1.2.3.4", 8080, "http", none, none, none, false, none⟩] 15 id
      (fun _ => none) = .keyError
  ∧ SelectorResult.keyError ≠ SelectorResult.noneFound := by
  exact ⟨by decide, by decide, by decide⟩

/-- C2 amended: `find_working_proxy` builds its candidate list as the pool's
favorite-flagged records when at least one exists, otherwise the full pool
stably sorted ascending by each record's latency key; that sort reads the
`latency` key directly, so when no favorites exist and any record lacks a
latency the call raises `KeyError` instead of returning anything; otherwise
the list is truncated to `max_attempts`, randomly shuffled, and tested one
candidate at a time, returning the first the health check reports working
(first-fit) and nothing (not an error) when every candidate fails. -/
theorem find_working_proxy_spec (proxies : List Proxy) (max_attempts : Nat)
    (shuffle : List Proxy → List Proxy) (test : Proxy → Option TestOk)
    (hsh : ∀ l, (shuffle l).Perm l) :
      ((proxies.filter (fun p => p.is_favorite)).isEmpty = false →
        find_working_proxy proxies max_attempts shuffle test
          = select test (shuffle ((proxies.filter (fun p => p.is_favorite)).take max_attempts)))
    ∧ (∀ keyed, (proxies.filter (fun p => p.is_favorite)).isEmpty = true →
        latency_keyed proxies = some keyed →
          find_working_proxy proxies max_attempts shuffle test
            = select test (shuffle (((keyed.mergeSort key_le).map Prod.snd).take max_attempts))
          ∧ ((keyed.mergeSort key_le).map Prod.snd).Perm proxies
          ∧ (keyed.mergeSort key_le).Pairwise (fun a b => a.1 ≤ b.1)
          ∧ (∀ pr ∈ keyed, pr.2.latency = some pr.1))
    ∧ ((proxies.filter (fun p => p.is_favorite)).isEmpty = true →
        latency_keyed proxies = none →
        find_working_proxy proxies max_attempts shuffle test = .keyError)
    ∧ (latency_keyed proxies = none ↔ ∃ p ∈ proxies, p.latency = none)
    ∧ (∀ l : List Proxy, (shuffle (l.take max_attempts)).length ≤ max_attempts)
    ∧ (∀ cands p ok, select test cands = .found p ok →
        test p = some ok ∧ ∃ pre post, cands = pre ++ p :: post ∧ ∀ q ∈ pre, test q = none)
    ∧ (∀ cands, (∀ q ∈ cands, test q = none) → select test cands = .noneFound) := by
  refine ⟨?_, ?_, ?_, latency_keyed_eq_none, ?_, ?_, ?_⟩
  · intro h
    simp [find_working_proxy, h]
  · intro keyed h hk
    obtain ⟨hmap, hlat⟩ := latency_keyed_eq_some hk
    have hperm : ((keyed.mergeSort key_le).map Prod.snd).Perm proxies := by
      have hp := (List.mergeSort_perm keyed key_le).map Prod.snd
      rw [hmap] at hp
      exact hp
    have hpair : (keyed.mergeSort key_le).Pairwise (fun a b => a.1 ≤ b.1) := by
      have hs : (keyed.mergeSort key_le).Pairwise (fun a b => key_le a b = true) :=
        List.sorted_mergeSort key_le_trans key_le_total keyed
      exact hs.imp (fun hab => by simpa [key_le] using hab)
    exact ⟨by simp [find_working_proxy, h, hk], hperm, hpair, hlat⟩
  · intro h hk
    simp [find_working_proxy, h, hk]
  · intro l
    calc (shuffle (l.take max_attempts)).length
        = (l.take max_attempts).length := (hsh _).length_eq
      _ ≤ max_attempts := List.length_take_le _ _
  · intro cands p ok h
    unfold select at h
    cases hf : first_fit test cands with
    | none =>
      rw [hf] at h
      exact absurd h (by simp)
    | some pr =>
      rw [hf] at h
      obtain ⟨q, r⟩ := pr
      obtain ⟨rfl, rfl⟩ := SelectorResult.found.injEq .. ▸ h
      exact first_fit_eq_some hf
  · intro cands h
    unfold select
    rw [first_fit_eq_none h]

/-- C2 witness: the amended theorem applied to the spec's scenario pool (the
favorite alone is the candidate list; an always-failing health check returns
nothing) and to a pool of latency-less custom-format records (`KeyError`). -/
theorem find_working_proxy_spec_witness :
    find_working_proxy [⟨"h1", 1, "http", none, some 500, none, false, none⟩,
        ⟨"h2", 2, "http", none, some 100, none, true, none⟩] 15 id (fun _ => none)
      = select (fun _ => none)
          (id (([⟨"h1", 1, "http", none, some 500, none, false, none⟩,
                 ⟨"h2", 2, "http", none, some 100, none, true, none⟩].filter
                  (fun p => p.is_favorite)).take 15))
  ∧ find_working_proxy [⟨"h1", 1, "http", none, some 500, none, false, none⟩,
        ⟨"h2", 2, "http", none, some 100, none, true, none⟩] 15 id (fun _ => none)
      = .noneFound
  ∧ find_working_proxy [⟨"n1", 9, "http", none, none, none, false, none⟩] 15 id
      (fun _ => none) = .keyError := by
  have h := find_working_proxy_spec
    [⟨"h1", 1, "http", none, some 500, none, false, none⟩,
     ⟨"h2", 2, "http", none, some 100, none, true, none⟩] 15 id (fun _ => none)
    (fun l => List.Perm.refl l)
  have hk := find_working_proxy_spec
    [⟨"n1", 9, "http", none, none, none, false, none⟩] 15 id (fun _ => none)
    (fun l => List.Perm.refl l)
  refine ⟨h.1 (by decide), ?_, hk.2.2.1 (by decide) (by decide)⟩
  rw [h.1 (by decide)]
  exact h.2.2.2.2.2.2 _ (fun q hq => rfl)

end IPAlchemist
